import Mathlib

/-!
# Verification of the Miden VM processor specification

Shallow embedding of the parts of the `miden-vm` repository needed to settle
the specification claims:

* the assembly parsers for stack-manipulation instructions
  (`assembly/src/v1/parsers/stack_ops.rs`), embedded directly from the source;
* the memory chiplet, stack-depth bookkeeping, process execution and trace
  finalization, which are not among the provided source files and are
  therefore modelled from the specification text (each such definition is
  marked `Modelled from the spec:` in its doc comment).
-/

namespace MidenVM

/-! ## Operations and assembly errors

`Operation` mirrors the variants of `vm_core::Operation` that the excerpted
parsers emit.  `AssemblyError` mirrors the three constructors used by
`stack_ops.rs`: `missing_param`, `extra_param`, `invalid_param(op, idx)`. -/

inductive Operation where
  | Drop
  | Pad
  | Dup0 | Dup1 | Dup2 | Dup3 | Dup4 | Dup5 | Dup6 | Dup7
  | Dup8 | Dup9 | Dup10 | Dup11 | Dup12 | Dup13 | Dup14 | Dup15
  | SwapW | SwapW2 | SwapW3
  deriving DecidableEq, Repr

inductive AssemblyError where
  | missingParam
  | extraParam
  | invalidParam (index : Nat)
  deriving DecidableEq, Repr

deriving instance DecidableEq for Except

/-- A token is its dot-separated parts; `num_parts` is the length of this
list and `parts()[i]` is the `i`-th entry, as in `Token` in the assembler. -/
abbrev TokenParts := List String

abbrev ParseResult := Except AssemblyError (List Operation)

/-! ## Parsers from `assembly/src/v1/parsers/stack_ops.rs`

Each Lean function returns the list of operations the Rust function pushes
onto `span_ops` (in push order), or the error it returns. -/

/-- `parse_dup`: translates `dup.n` to the VM operation `DUPN`
(`stack_ops.rs` lines 48-75).  A bare `dup` (one part) emits `Dup0`. -/
def parse_dup (parts : TokenParts) : ParseResult :=
  match parts with
  | [] => .error .missingParam
  | [_] => .ok [.Dup0]
  | [_, p] =>
    if p = "0" then .ok [.Dup0]
    else if p = "1" then .ok [.Dup1]
    else if p = "2" then .ok [.Dup2]
    else if p = "3" then .ok [.Dup3]
    else if p = "4" then .ok [.Dup4]
    else if p = "5" then .ok [.Dup5]
    else if p = "6" then .ok [.Dup6]
    else if p = "7" then .ok [.Dup7]
    else if p = "8" then .ok [.Dup8]
    else if p = "9" then .ok [.Dup9]
    else if p = "10" then .ok [.Dup10]
    else if p = "11" then .ok [.Dup11]
    else if p = "12" then .ok [.Dup12]
    else if p = "13" then .ok [.Dup13]
    else if p = "14" then .ok [.Dup14]
    else if p = "15" then .ok [.Dup15]
    else .error (.invalidParam 1)
  | _ => .error .extraParam

/-- `parse_dupw`: translates `dupw.n` to four `DUP` operations
(`stack_ops.rs` lines 79-119).  A bare `dupw` emits the word-0 sequence. -/
def parse_dupw (parts : TokenParts) : ParseResult :=
  match parts with
  | [] => .error .missingParam
  | [_] => .ok [.Dup3, .Dup2, .Dup1, .Dup0]
  | [_, p] =>
    if p = "0" then .ok [.Dup3, .Dup2, .Dup1, .Dup0]
    else if p = "1" then .ok [.Dup7, .Dup6, .Dup5, .Dup4]
    else if p = "2" then .ok [.Dup11, .Dup10, .Dup9, .Dup8]
    else if p = "3" then .ok [.Dup15, .Dup14, .Dup13, .Dup12]
    else .error (.invalidParam 1)
  | _ => .error .extraParam

/-- `parse_swapw`: translates `swapw.n` to the VM operation `SWAPWN`
(`stack_ops.rs` lines 126-141).  A bare `swapw` emits `SwapW`; the only
valid indexed forms are `1`, `2`, `3`. -/
def parse_swapw (parts : TokenParts) : ParseResult :=
  match parts with
  | [] => .error .missingParam
  | [_] => .ok [.SwapW]
  | [_, p] =>
    if p = "1" then .ok [.SwapW]
    else if p = "2" then .ok [.SwapW2]
    else if p = "3" then .ok [.SwapW3]
    else .error (.invalidParam 1)
  | _ => .error .extraParam

/-- `parse_movupw`: translates `movupw.x` (`stack_ops.rs` lines 153-172);
`movupw.2` emits `SWAPW SWAPW2`, `movupw.3` emits `SWAPW SWAPW2 SWAPW3`;
a missing index is a missing-parameter error. -/
def parse_movupw (parts : TokenParts) : ParseResult :=
  match parts with
  | [] => .error .missingParam
  | [_] => .error .missingParam
  | [_, p] =>
    if p = "2" then .ok [.SwapW, .SwapW2]
    else if p = "3" then .ok [.SwapW, .SwapW2, .SwapW3]
    else .error (.invalidParam 1)
  | _ => .error .extraParam

/-- `parse_movdnw`: translates `movdnw.x` (`stack_ops.rs` lines 184-203);
`movdnw.2` emits `SWAPW2 SWAPW`, `movdnw.3` emits `SWAPW3 SWAPW2 SWAPW`;
a missing index is a missing-parameter error. -/
def parse_movdnw (parts : TokenParts) : ParseResult :=
  match parts with
  | [] => .error .missingParam
  | [_] => .error .missingParam
  | [_, p] =>
    if p = "2" then .ok [.SwapW2, .SwapW]
    else if p = "3" then .ok [.SwapW3, .SwapW2, .SwapW]
    else .error (.invalidParam 1)
  | _ => .error .extraParam

/-- The decimal index strings accepted by `parse_dup`. -/
def dupParams : List String :=
  ["0", "1", "2", "3", "4", "5", "6", "7",
   "8", "9", "10", "11", "12", "13", "14", "15"]

/-- The decimal word-index strings accepted by `parse_dupw`. -/
def dupwParams : List String := ["0", "1", "2", "3"]

/-- The decimal word-index strings accepted by `parse_swapw`. -/
def swapwParams : List String := ["1", "2", "3"]

/-- The `Dup` operation for stack depth `n`, as emitted by `parse_dup`. -/
def dupOp (n : Fin 16) : Operation :=
  match n.val with
  | 0 => .Dup0
  | 1 => .Dup1
  | 2 => .Dup2
  | 3 => .Dup3
  | 4 => .Dup4
  | 5 => .Dup5
  | 6 => .Dup6
  | 7 => .Dup7
  | 8 => .Dup8
  | 9 => .Dup9
  | 10 => .Dup10
  | 11 => .Dup11
  | 12 => .Dup12
  | 13 => .Dup13
  | 14 => .Dup14
  | _ => .Dup15

lemma parse_dup_invalid (s : String) (h : s ∉ dupParams) :
    parse_dup ["dup", s] = .error (.invalidParam 1) := by
  have h0 : ¬ s = "0" := fun e => h (by subst e; decide)
  have h1 : ¬ s = "1" := fun e => h (by subst e; decide)
  have h2 : ¬ s = "2" := fun e => h (by subst e; decide)
  have h3 : ¬ s = "3" := fun e => h (by subst e; decide)
  have h4 : ¬ s = "4" := fun e => h (by subst e; decide)
  have h5 : ¬ s = "5" := fun e => h (by subst e; decide)
  have h6 : ¬ s = "6" := fun e => h (by subst e; decide)
  have h7 : ¬ s = "7" := fun e => h (by subst e; decide)
  have h8 : ¬ s = "8" := fun e => h (by subst e; decide)
  have h9 : ¬ s = "9" := fun e => h (by subst e; decide)
  have h10 : ¬ s = "10" := fun e => h (by subst e; decide)
  have h11 : ¬ s = "11" := fun e => h (by subst e; decide)
  have h12 : ¬ s = "12" := fun e => h (by subst e; decide)
  have h13 : ¬ s = "13" := fun e => h (by subst e; decide)
  have h14 : ¬ s = "14" := fun e => h (by subst e; decide)
  have h15 : ¬ s = "15" := fun e => h (by subst e; decide)
  simp only [parse_dup, if_neg h0, if_neg h1, if_neg h2, if_neg h3, if_neg h4,
    if_neg h5, if_neg h6, if_neg h7, if_neg h8, if_neg h9, if_neg h10,
    if_neg h11, if_neg h12, if_neg h13, if_neg h14, if_neg h15]

lemma parse_dup_ok_iff (s : String) :
    (parse_dup ["dup", s]).isOk = true ↔ s ∈ dupParams := by
  constructor
  · intro hok
    by_contra hmem
    rw [parse_dup_invalid s hmem] at hok
    exact absurd hok (by decide)
  · intro hmem
    simp only [dupParams, List.mem_cons, List.not_mem_nil, or_false] at hmem
    rcases hmem with rfl | rfl | rfl | rfl | rfl | rfl | rfl | rfl | rfl | rfl |
      rfl | rfl | rfl | rfl | rfl | rfl <;> decide

lemma parse_dupw_invalid (s : String) (h : s ∉ dupwParams) :
    parse_dupw ["dupw", s] = .error (.invalidParam 1) := by
  have h0 : ¬ s = "0" := fun e => h (by subst e; decide)
  have h1 : ¬ s = "1" := fun e => h (by subst e; decide)
  have h2 : ¬ s = "2" := fun e => h (by subst e; decide)
  have h3 : ¬ s = "3" := fun e => h (by subst e; decide)
  simp only [parse_dupw, if_neg h0, if_neg h1, if_neg h2, if_neg h3]

lemma parse_dupw_ok_iff (s : String) :
    (parse_dupw ["dupw", s]).isOk = true ↔ s ∈ dupwParams := by
  constructor
  · intro hok
    by_contra hmem
    rw [parse_dupw_invalid s hmem] at hok
    exact absurd hok (by decide)
  · intro hmem
    simp only [dupwParams, List.mem_cons, List.not_mem_nil, or_false] at hmem
    rcases hmem with rfl | rfl | rfl | rfl <;> decide

lemma parse_swapw_invalid (s : String) (h : s ∉ swapwParams) :
    parse_swapw ["swapw", s] = .error (.invalidParam 1) := by
  have h1 : ¬ s = "1" := fun e => h (by subst e; decide)
  have h2 : ¬ s = "2" := fun e => h (by subst e; decide)
  have h3 : ¬ s = "3" := fun e => h (by subst e; decide)
  simp only [parse_swapw, if_neg h1, if_neg h2, if_neg h3]

lemma parse_swapw_ok_iff (s : String) :
    (parse_swapw ["swapw", s]).isOk = true ↔ s ∈ swapwParams := by
  constructor
  · intro hok
    by_contra hmem
    rw [parse_swapw_invalid s hmem] at hok
    exact absurd hok (by decide)
  · intro hmem
    simp only [swapwParams, List.mem_cons, List.not_mem_nil, or_false] at hmem
    rcases hmem with rfl | rfl | rfl <;> decide

/-! ## Word-swap stack semantics

The processor's stack implementation is not among the provided source files,
so the effect of the word-swap operations is modelled from the
specification (§4.1). -/

/-- A 4-element word of stack values. -/
abbrev StackWord := Nat × Nat × Nat × Nat

/-- Modelled from the spec: the 16 visible stack registers viewed as four
4-element words (§4.1); the processor stack implementation is missing from
the provided sources. -/
structure StackTop where
  w0 : StackWord
  w1 : StackWord
  w2 : StackWord
  w3 : StackWord
  deriving DecidableEq, Repr

/-- Modelled from the spec: `swap_word(n)` swaps the top word with word `n`
of the visible stack (§4.1), so `SWAPW`, `SWAPW2`, `SWAPW3` swap word 0 with
words 1, 2, 3 respectively; operations that are not word swaps leave this
word view unchanged. -/
def applyWordSwap : Operation → StackTop → StackTop
  | .SwapW, t => ⟨t.w1, t.w0, t.w2, t.w3⟩
  | .SwapW2, t => ⟨t.w2, t.w1, t.w0, t.w3⟩
  | .SwapW3, t => ⟨t.w3, t.w1, t.w2, t.w0⟩
  | _, t => t

/-- Applies an emitted operation sequence to the stack, first operation
first, as the processor consumes a span's operations in order. -/
def applyWordSwaps (ops : List Operation) (t : StackTop) : StackTop :=
  ops.foldl (fun u op => applyWordSwap op u) t

/-! ## Claim theorems for the assembly parsers -/

/-- Claim C3 (counterexample): `swapw.0` is rejected by `parse_swapw` with an
invalid-parameter error, refuting the claim that the word form `swapw.n`
succeeds for all word indices 0 through 3. -/
theorem swapw_index_zero_rejected :
    parse_swapw ["swapw", "0"] = .error (.invalidParam 1) := by
  decide

/-- Claim C3 (amended): Parsing `dup.n` succeeds, emitting the corresponding
`Dup` operation, exactly for decimal indices 0..15; `dupw.n` succeeds
exactly for word indices 0..3; `swapw.n` succeeds exactly for word indices
1..3 (index 0 is not accepted); for every index string outside those sets
the parser returns an invalid-parameter error. -/
theorem indexed_stack_param_validity (s : String) :
    ((parse_dup ["dup", s]).isOk = true ↔ s ∈ dupParams) ∧
    (s ∉ dupParams → parse_dup ["dup", s] = .error (.invalidParam 1)) ∧
    ((parse_dupw ["dupw", s]).isOk = true ↔ s ∈ dupwParams) ∧
    (s ∉ dupwParams → parse_dupw ["dupw", s] = .error (.invalidParam 1)) ∧
    ((parse_swapw ["swapw", s]).isOk = true ↔ s ∈ swapwParams) ∧
    (s ∉ swapwParams → parse_swapw ["swapw", s] = .error (.invalidParam 1)) ∧
    (∀ n : Fin 16, parse_dup ["dup", toString n.val] = .ok [dupOp n]) :=
  ⟨parse_dup_ok_iff s, parse_dup_invalid s, parse_dupw_ok_iff s,
   parse_dupw_invalid s, parse_swapw_ok_iff s, parse_swapw_invalid s,
   by decide⟩

/-- Claim C3 (witness): At the concrete out-of-range indices `dup.16` and
`swapw.4` the parsers return the invalid-parameter error. -/
theorem indexed_stack_param_validity_witness :
    parse_dup ["dup", "16"] = .error (.invalidParam 1) ∧
    parse_swapw ["swapw", "4"] = .error (.invalidParam 1) :=
  ⟨(indexed_stack_param_validity "16").2.1 (by decide),
   (indexed_stack_param_validity "4").2.2.2.2.2.1 (by decide)⟩

/-- Claim C10: A bare `dup` token parses as `dup.0` (emitting `Dup0`), a bare
`dupw` parses as `dupw.0` (emitting `Dup3 Dup2 Dup1 Dup0`), and a bare
`swapw` parses as `swapw.1` (emitting the single `SwapW`); none of them is
rejected as missing a parameter. -/
theorem bare_token_defaults :
    parse_dup ["dup"] = .ok [.Dup0] ∧
    parse_dup ["dup", "0"] = .ok [.Dup0] ∧
    parse_dupw ["dupw"] = .ok [.Dup3, .Dup2, .Dup1, .Dup0] ∧
    parse_dupw ["dupw", "0"] = .ok [.Dup3, .Dup2, .Dup1, .Dup0] ∧
    parse_swapw ["swapw"] = .ok [.SwapW] ∧
    parse_swapw ["swapw", "1"] = .ok [.SwapW] := by
  decide

/-- Claim C9: For each index `x` in `{2, 3}`, `movdnw.x` emits exactly the
reversal of the sequence emitted by `movupw.x`; each word swap is an
involution on the stack's word view, and consequently the two emitted
sequences are mutually inverse stack transformations. -/
theorem movupw_movdnw_mutually_inverse (x : String)
    (h : x = "2" ∨ x = "3") :
    ∃ ups dns : List Operation,
      parse_movupw ["movupw", x] = .ok ups ∧
      parse_movdnw ["movdnw", x] = .ok dns ∧
      dns = ups.reverse ∧
      (∀ op t, applyWordSwap op (applyWordSwap op t) = t) ∧
      (∀ t, applyWordSwaps dns (applyWordSwaps ups t) = t) ∧
      (∀ t, applyWordSwaps ups (applyWordSwaps dns t) = t) := by
  have hinv : ∀ op t, applyWordSwap op (applyWordSwap op t) = t := by
    intro op t
    cases op <;> rfl
  rcases h with rfl | rfl
  · exact ⟨[.SwapW, .SwapW2], [.SwapW2, .SwapW], by decide, by decide,
      by decide, hinv, fun t => rfl, fun t => rfl⟩
  · exact ⟨[.SwapW, .SwapW2, .SwapW3], [.SwapW3, .SwapW2, .SwapW], by decide,
      by decide, by decide, hinv, fun t => rfl, fun t => rfl⟩

/-- Claim C9 (witness): The mutual-inverse property instantiated at the
concrete index `2`. -/
theorem movupw_movdnw_mutually_inverse_witness :
    ∃ ups dns : List Operation,
      parse_movupw ["movupw", "2"] = .ok ups ∧
      parse_movdnw ["movdnw", "2"] = .ok dns ∧
      dns = ups.reverse ∧
      (∀ op t, applyWordSwap op (applyWordSwap op t) = t) ∧
      (∀ t, applyWordSwaps dns (applyWordSwaps ups t) = t) ∧
      (∀ t, applyWordSwaps ups (applyWordSwaps dns t) = t) :=
  movupw_movdnw_mutually_inverse "2" (Or.inl rfl)

/-! ## Memory chiplet model

The memory chiplet source is not among the provided files (only its
integration tests are), so it is modelled from the specification
(§3 Memory, §4.3 Memory Chiplet). -/

/-- A 4-element memory word. -/
abbrev Word := StackWord

/-- The all-zero word. -/
def zeroWord : Word := (0, 0, 0, 0)

/-- Modelled from the spec: memory is a mapping from (context id, address)
to a 4-element word (§3 Memory); the memory chiplet implementation is
missing from the provided sources. -/
def Mem := Nat → Nat → Word

/-- Modelled from the spec: a context not yet written is implicitly
all-zero (§3 Memory). -/
def emptyMem : Mem := fun _ _ => zeroWord

/-- Modelled from the spec: `store(addr, word)` replaces the word at the
given context and address (§4.3). -/
def store (m : Mem) (c a : Nat) (w : Word) : Mem :=
  fun c2 a2 => if c2 = c ∧ a2 = a then w else m c2 a2

/-- Modelled from the spec: `load(addr) -> word` reads the word at the
given context and address (§4.3). -/
def load (m : Mem) (c a : Nat) : Word := m c a

/-- Modelled from the spec: `load_element(addr) -> elem` reads the low
element of the word (§4.3). -/
def load_element (m : Mem) (c a : Nat) : Nat := (load m c a).1

/-- Modelled from the spec: `store_element(addr, elem)` modifies only the
addressed (low) element of the word, others preserved (§4.3); the
reference trace `helper_mem_store` shows the three later lanes of the old
word untouched. -/
def store_element (m : Mem) (c a e : Nat) : Mem :=
  store m c a (e, (m c a).2.1, (m c a).2.2.1, (m c a).2.2.2)

/-- Modelled from the spec: the helper registers of a `store_element` trace
row carry the three untouched lanes of the previous word (§4.3 and the
`helper_mem_store` reference trace). -/
def store_element_helpers (m : Mem) (c a : Nat) : Nat × Nat × Nat :=
  ((m c a).2.1, (m c a).2.2.1, (m c a).2.2.2)

/-- A memory mutation event: a whole-word store or an element store. -/
inductive MemEvent where
  | storeWord (c a : Nat) (w : Word)
  | storeElem (c a e : Nat)
  deriving DecidableEq, Repr

/-- The context id an event targets. -/
def MemEvent.ctx : MemEvent → Nat
  | .storeWord c _ _ => c
  | .storeElem c _ _ => c

/-- The address an event targets. -/
def MemEvent.addr : MemEvent → Nat
  | .storeWord _ a _ => a
  | .storeElem _ a _ => a

/-- Applies one memory mutation event. -/
def applyEvent (m : Mem) : MemEvent → Mem
  | .storeWord c a w => store m c a w
  | .storeElem c a e => store_element m c a e

/-- Applies a sequence of memory mutation events, first event first. -/
def applyEvents (evs : List MemEvent) (m : Mem) : Mem :=
  evs.foldl applyEvent m

lemma load_store_same (m : Mem) (c a : Nat) (w : Word) :
    load (store m c a w) c a = w := by
  simp [load, store]

lemma load_store_other (m : Mem) (c a : Nat) (w : Word) (c2 a2 : Nat)
    (h : ¬ (c2 = c ∧ a2 = a)) :
    load (store m c a w) c2 a2 = load m c2 a2 := by
  simp [load, store, h]

lemma load_applyEvent_untouched (m : Mem) (ev : MemEvent) (c a : Nat)
    (h : ¬ (ev.ctx = c ∧ ev.addr = a)) :
    load (applyEvent m ev) c a = load m c a := by
  cases ev with
  | storeWord c2 a2 w =>
    simp only [MemEvent.ctx, MemEvent.addr] at h
    exact load_store_other m c2 a2 w c a fun hq => h ⟨hq.1.symm, hq.2.symm⟩
  | storeElem c2 a2 e =>
    simp only [MemEvent.ctx, MemEvent.addr] at h
    exact load_store_other m c2 a2 _ c a fun hq => h ⟨hq.1.symm, hq.2.symm⟩

lemma load_applyEvents_untouched (evs : List MemEvent) (m : Mem) (c a : Nat)
    (h : ∀ ev ∈ evs, ¬ (ev.ctx = c ∧ ev.addr = a)) :
    load (applyEvents evs m) c a = load m c a := by
  induction evs generalizing m with
  | nil => rfl
  | cons ev rest ih =>
    have step : applyEvents (ev :: rest) m = applyEvents rest (applyEvent m ev) := rfl
    rw [step, ih (applyEvent m ev) fun e he => h e (List.mem_cons_of_mem ev he),
      load_applyEvent_untouched m ev c a (h ev (List.mem_cons_self ev rest))]

/-! ## Claim theorems for the memory chiplet -/

/-- Claim C1: Memory round-trip: after `store(a, w)` in context `c`, any
sequence of further stores none of which targets `(c, a)` leaves
`load(a)` in context `c` returning exactly `w`. -/
theorem memory_round_trip (m : Mem) (c a : Nat) (w : Word)
    (evs : List MemEvent)
    (h : ∀ ev ∈ evs, ¬ (ev.ctx = c ∧ ev.addr = a)) :
    load (applyEvents evs (store m c a w)) c a = w := by
  rw [load_applyEvents_untouched evs (store m c a w) c a h, load_store_same]

/-- Claim C1 (witness): Round-trip at concrete context 0, address 0, word
`(4,3,2,1)`, with one intervening store to a different address. -/
theorem memory_round_trip_witness :
    load (applyEvents [.storeWord 0 1 (9, 9, 9, 9)]
      (store emptyMem 0 0 (4, 3, 2, 1))) 0 0 = (4, 3, 2, 1) :=
  memory_round_trip emptyMem 0 0 (4, 3, 2, 1) [.storeWord 0 1 (9, 9, 9, 9)]
    (by decide)

/-- Claim C5: Zero-initialized memory: in any context, an address to which no
store in the executed event sequence was performed reads as the all-zero
word. -/
theorem memory_zero_initialized (c a : Nat) (evs : List MemEvent)
    (h : ∀ ev ∈ evs, ¬ (ev.ctx = c ∧ ev.addr = a)) :
    load (applyEvents evs emptyMem) c a = zeroWord :=
  load_applyEvents_untouched evs emptyMem c a h

/-- Claim C5 (witness): Concrete: after stores to (ctx 0, addr 1) and
(ctx 2, addr 0), the never-written (ctx 0, addr 0) reads as zero. -/
theorem memory_zero_initialized_witness :
    load (applyEvents [.storeWord 0 1 (9, 9, 9, 9), .storeElem 2 0 7]
      emptyMem) 0 0 = zeroWord :=
  memory_zero_initialized 0 0 [.storeWord 0 1 (9, 9, 9, 9), .storeElem 2 0 7]
    (by decide)

/-- Claim C8: Memory non-aliasing: a store to a distinct address `b` in the
same context leaves the word at `a` unchanged; in particular after storing
`(4,3,2,1)` at addresses 0 and 1 of context 0, both addresses read that
word independently. -/
theorem memory_non_aliasing (m : Mem) (c a b : Nat) (w : Word)
    (h : a ≠ b) :
    load (store m c b w) c a = load m c a ∧
    load (store (store emptyMem 0 0 (4, 3, 2, 1)) 0 1 (4, 3, 2, 1)) 0 0 =
      (4, 3, 2, 1) ∧
    load (store (store emptyMem 0 0 (4, 3, 2, 1)) 0 1 (4, 3, 2, 1)) 0 1 =
      (4, 3, 2, 1) := by
  refine ⟨load_store_other m c b w c a fun hq => h hq.2, ?_, ?_⟩ <;> decide

/-- Claim C8 (witness): Non-aliasing instantiated at context 0, addresses 4
and 5. -/
theorem memory_non_aliasing_witness :
    load (store emptyMem 0 5 (7, 7, 7, 7)) 0 4 = load emptyMem 0 4 ∧
    load (store (store emptyMem 0 0 (4, 3, 2, 1)) 0 1 (4, 3, 2, 1)) 0 0 =
      (4, 3, 2, 1) ∧
    load (store (store emptyMem 0 0 (4, 3, 2, 1)) 0 1 (4, 3, 2, 1)) 0 1 =
      (4, 3, 2, 1) :=
  memory_non_aliasing emptyMem 0 4 5 (7, 7, 7, 7) (by decide)

/-- Claim C4: Single-element store frame property: `store_element(addr, e)`
sets the low lane of the addressed word to `e`, keeps the three other
lanes unchanged, leaves every other (context, address) untouched, and the
untouched lanes are exactly the helper-register values of the trace row. -/
theorem store_element_frame (m : Mem) (c a e : Nat) :
    load (store_element m c a e) c a =
      (e, (load m c a).2.1, (load m c a).2.2.1, (load m c a).2.2.2) ∧
    (∀ c2 a2, ¬ (c2 = c ∧ a2 = a) →
      load (store_element m c a e) c2 a2 = load m c2 a2) ∧
    store_element_helpers m c a =
      ((load m c a).2.1, (load m c a).2.2.1, (load m c a).2.2.2) :=
  ⟨load_store_same m c a _,
   fun c2 a2 h => load_store_other m c a _ c2 a2 h,
   rfl⟩

/-- Claim C4 (witness): Storing element 9 at (ctx 0, addr 0) over the word
`(2,3,4,5)` yields `(9,3,4,5)`, leaves address 1 zero, and the helper
registers carry `(3,4,5)`. -/
theorem store_element_frame_witness :
    load (store_element (store emptyMem 0 0 (2, 3, 4, 5)) 0 0 9) 0 0 =
      (9, 3, 4, 5) ∧
    load (store_element (store emptyMem 0 0 (2, 3, 4, 5)) 0 0 9) 0 1 =
      zeroWord ∧
    store_element_helpers (store emptyMem 0 0 (2, 3, 4, 5)) 0 0 = (3, 4, 5) :=
  ⟨((store_element_frame (store emptyMem 0 0 (2, 3, 4, 5)) 0 0 9).1).trans
      (by decide),
   ((store_element_frame (store emptyMem 0 0 (2, 3, 4, 5)) 0 0 9).2.1 0 1
      (by decide)).trans (by decide),
   ((store_element_frame (store emptyMem 0 0 (2, 3, 4, 5)) 0 0 9).2.2).trans
      (by decide)⟩

/-! ## Stack depth model

`STACK_TOP_SIZE` comes from `core/src/stack/mod.rs`; the depth effect of
the stack operations is modelled from the specification (§3 Stack, §4.1),
as the processor stack implementation is missing from the provided
sources. -/

/-- `STACK_TOP_SIZE` from `core/src/stack/mod.rs` lines 20-22: the number
of stack registers directly accessible by the VM, also the minimum stack
depth enforced by the VM. -/
def STACK_TOP_SIZE : Nat := 16

/-- Modelled from the spec: the stack-manipulation operations of §4.1 with
their operand counts; the processor stack implementation is missing from
the provided sources. -/
inductive StackOp where
  | push
  | dup (n : Fin 16)
  | dupw (n : Fin 4)
  | padw
  | swap
  | swapw (n : Fin 4)
  | drop
  | dropw
  deriving DecidableEq, Repr

/-- Modelled from the spec: removing one element pulls from the overflow
table if depth exceeds 16, and the 16-register floor is logically padded
with zeros, so depth never decreases below `STACK_TOP_SIZE` (§4.1). -/
def dropOne (d : Nat) : Nat :=
  if STACK_TOP_SIZE < d then d - 1 else STACK_TOP_SIZE

/-- Modelled from the spec: depth bookkeeping — every push/pop updates the
depth counter (§4.1); `dup`/`push` add one element, the word variants add
four, swaps leave the depth unchanged, drops remove elements through
`dropOne`. -/
def depthStep : StackOp → Nat → Nat
  | .push, d => d + 1
  | .dup _, d => d + 1
  | .dupw _, d => d + 4
  | .padw, d => d + 4
  | .swap, d => d
  | .swapw _, d => d
  | .drop, d => dropOne d
  | .dropw, d => dropOne (dropOne (dropOne (dropOne d)))

/-- Runs the depth bookkeeping over an operation sequence, first operation
first. -/
def execDepth (ops : List StackOp) (d : Nat) : Nat :=
  ops.foldl (fun d2 op => depthStep op d2) d

lemma dropOne_ge (d : Nat) : STACK_TOP_SIZE ≤ dropOne d := by
  unfold dropOne STACK_TOP_SIZE
  split_ifs <;> omega

lemma depthStep_ge (op : StackOp) (d : Nat) (h : STACK_TOP_SIZE ≤ d) :
    STACK_TOP_SIZE ≤ depthStep op d := by
  cases op <;>
    first
      | exact dropOne_ge _
      | (simp only [depthStep]; unfold STACK_TOP_SIZE at *; omega)

/-- Claim C2: stack-depth invariant — for every operation sequence executed
from a state whose visible depth is at least `STACK_TOP_SIZE` (in
particular from the initial depth-16 state), the depth stays at least
`STACK_TOP_SIZE` after every prefix. -/
theorem stack_depth_invariant (ops : List StackOp) (d : Nat)
    (h : STACK_TOP_SIZE ≤ d) : STACK_TOP_SIZE ≤ execDepth ops d := by
  induction ops generalizing d with
  | nil => exact h
  | cons op rest ih => exact ih (depthStep op d) (depthStep_ge op d h)

/-- Claim C2 (witness): a concrete sequence that pushes once and then drops
five elements still ends at depth 16, not below. -/
theorem stack_depth_invariant_witness :
    STACK_TOP_SIZE ≤ execDepth [.push, .drop, .drop, .dropw] STACK_TOP_SIZE :=
  stack_depth_invariant [.push, .drop, .drop, .dropw] STACK_TOP_SIZE
    (by decide)

/-! ## Process execution model

The `Process`/`ExecutionTrace` implementation is missing from the provided
sources (only its test helpers are), so execution of a code-block tree is
modelled from the specification: the full code-block variant set of §3
(`Span`, `Join`, `Split`, `Loop`, `Call`, `SysCall`, `Dyn`), span
operations covering every category §3 lists for `Operation` (stack
manipulation, field arithmetic, memory access, hashing primitive, advice
reads, no-op), and a machine state threading the system registers of §4.6
(clock, context id, free-memory pointer) together with the stack, the
advice stack, the memory and the trace rows.  The external collaborators —
the prime-field primitive (§2, external, not re-specified), the hasher's
permutation (§4.4), and the read-only advice map and Merkle store of the
advice provider (§3, the processor never writes them) — are parameters of
execution, so determinism is proved for every fixed instantiation of them,
which includes the real primitives. -/

/-- A field-element value of the VM. -/
abbrev Felt := Nat

/-- Modelled from the spec: the external collaborators execution reads
from — the prime-field arithmetic primitive (§2: external, not
re-specified here; `finv` is only consulted on non-zero input, the VM
itself raises the division-by-zero fault), the hasher chiplet's fixed
permutation (§4.4), and the advice provider's content-addressed map and
Merkle store (§3), which the processor reads but never writes. -/
structure Host where
  fadd : Felt → Felt → Felt
  fmul : Felt → Felt → Felt
  finv : Felt → Felt
  perm : List Felt → List Felt
  amap : Felt → Option (List Felt)
  mtree : Felt → Felt → Option Felt

/-- Modelled from the spec: the machine state threaded through execution
(§4.6) — the stack, the advice stack of the advice provider (its mutable,
consumable part), the context-scoped memory, the system registers
(context id, free-memory pointer, clock), the fresh-context allocation
counter, and the trace rows built so far, one row appended per cycle,
recorded as the pair of the cycle counter and an operation code. -/
structure VMState where
  stack : List Felt
  advStack : List Felt
  mem : Mem
  ctx : Nat
  fmp : Felt
  nextCtx : Nat
  clk : Nat
  rows : List (Nat × Nat)

/-- Modelled from the spec: span operations drawn from every category §3
lists for `Operation` — stack manipulation (`push`, `drop`, `dup`,
`swap`), field arithmetic (`add`, `mul`, `inv`, `assert`), memory access
(`mloadw`, `mstorew`, `mstore`), the hashing primitive (`hperm`), advice
reads (`advPop`, `advMapFetch`, `merkleGet`), and a no-op. -/
inductive Op where
  | push (v : Felt)
  | drop
  | dup (n : Nat)
  | swap
  | add
  | mul
  | inv
  | assert
  | mloadw
  | mstorew
  | mstore
  | hperm
  | advPop
  | advMapFetch
  | merkleGet
  | noop

/-- A numeric code recorded in the trace row for each span operation. -/
def opcode : Op → Nat
  | .noop => 0
  | .push _ => 1
  | .drop => 2
  | .dup _ => 3
  | .swap => 4
  | .add => 5
  | .mul => 6
  | .inv => 7
  | .assert => 8
  | .mloadw => 9
  | .mstorew => 10
  | .mstore => 11
  | .hperm => 12
  | .advPop => 13
  | .advMapFetch => 14
  | .merkleGet => 15

/-- Advances one cycle: the clock ticks and one trace row is appended,
with the stack, advice stack and memory replaced as instructed; the
context registers are carried unchanged (§4.6). -/
def tick (s : VMState) (code : Nat) (stack advStack : List Felt)
    (mem : Mem) : VMState :=
  ⟨stack, advStack, mem, s.ctx, s.fmp, s.nextCtx, s.clk + 1,
   s.rows ++ [(s.clk, code)]⟩

/-- Modelled from the spec: one cycle of span execution (§4.6) — the
operation is dispatched to the stack or the relevant chiplet, the clock
advances, and one trace row is appended.  A missing operand, a missing
advice entry, a division by zero or a failed assertion is a fatal error
(`none`), per the §7 taxonomy. -/
def execOp (host : Host) (op : Op) (s : VMState) : Option VMState :=
  match op with
  | .push v => some (tick s (opcode op) (v :: s.stack) s.advStack s.mem)
  | .drop =>
    match s.stack with
    | [] => none
    | _ :: rest => some (tick s (opcode op) rest s.advStack s.mem)
  | .dup n =>
    some (tick s (opcode op) (s.stack.getD n 0 :: s.stack) s.advStack s.mem)
  | .swap =>
    match s.stack with
    | a :: b :: rest =>
      some (tick s (opcode op) (b :: a :: rest) s.advStack s.mem)
    | _ => none
  | .add =>
    match s.stack with
    | a :: b :: rest =>
      some (tick s (opcode op) (host.fadd a b :: rest) s.advStack s.mem)
    | _ => none
  | .mul =>
    match s.stack with
    | a :: b :: rest =>
      some (tick s (opcode op) (host.fmul a b :: rest) s.advStack s.mem)
    | _ => none
  | .inv =>
    match s.stack with
    | 0 :: _ => none
    | a :: rest =>
      some (tick s (opcode op) (host.finv a :: rest) s.advStack s.mem)
    | _ => none
  | .assert =>
    match s.stack with
    | 1 :: rest => some (tick s (opcode op) rest s.advStack s.mem)
    | _ => none
  | .mloadw =>
    match s.stack with
    | a :: rest =>
      some (tick s (opcode op)
        ((load s.mem s.ctx a).1 :: (load s.mem s.ctx a).2.1 ::
          (load s.mem s.ctx a).2.2.1 :: (load s.mem s.ctx a).2.2.2 :: rest)
        s.advStack s.mem)
    | _ => none
  | .mstorew =>
    match s.stack with
    | a :: e0 :: e1 :: e2 :: e3 :: rest =>
      some (tick s (opcode op) (e0 :: e1 :: e2 :: e3 :: rest) s.advStack
        (store s.mem s.ctx a (e0, e1, e2, e3)))
    | _ => none
  | .mstore =>
    match s.stack with
    | a :: e :: rest =>
      some (tick s (opcode op) rest s.advStack
        (store_element s.mem s.ctx a e))
    | _ => none
  | .hperm =>
    if 12 ≤ s.stack.length then
      some (tick s (opcode op)
        (host.perm (s.stack.take 12) ++ s.stack.drop 12) s.advStack s.mem)
    else none
  | .advPop =>
    match s.advStack with
    | [] => none
    | v :: rest => some (tick s (opcode op) (v :: s.stack) rest s.mem)
  | .advMapFetch =>
    match s.stack with
    | a :: _ =>
      match host.amap a with
      | none => none
      | some vs => some (tick s (opcode op) (vs ++ s.stack) s.advStack s.mem)
    | _ => none
  | .merkleGet =>
    match s.stack with
    | r :: i :: rest =>
      match host.mtree r i with
      | none => none
      | some v => some (tick s (opcode op) (v :: rest) s.advStack s.mem)
    | _ => none
  | .noop => some (tick s (opcode op) s.stack s.advStack s.mem)

/-- Executes a span's operations in order, stopping at the first fatal
error. -/
def execSpan (host : Host) (ops : List Op) (s : VMState) : Option VMState :=
  match ops with
  | [] => some s
  | op :: rest => (execOp host op s).bind (execSpan host rest)

/-- Modelled from the spec: the code-block tree with all the variants §3
lists — `Span`, `Join`, `Split`, `Loop`, `Call` and `SysCall` (each naming
their target block by its digest, resolved through the explicit
side-table of §9), and `Dyn` (whose target digest is read from the stack
at runtime). -/
inductive CodeBlock where
  | span (ops : List Op)
  | join (a b : CodeBlock)
  | split (a b : CodeBlock)
  | loop (body : CodeBlock)
  | call (digest : Word)
  | syscall (digest : Word)
  | dyn

/-- Modelled from the spec: entering a `Split` or checking a `Loop`
condition consumes the boolean on top of the stack, advances the clock and
appends a control row (§4.2). -/
def popCond (s : VMState) (rest : List Felt) : VMState :=
  ⟨rest, s.advStack, s.mem, s.ctx, s.fmp, s.nextCtx, s.clk + 1,
   s.rows ++ [(s.clk, 16)]⟩

/-- Modelled from the spec: entering a `Call` switches to a freshly
allocated memory context with a reset free-memory pointer (§4.2, §4.6),
advancing the clock and appending a control row. -/
def enterCall (s : VMState) : VMState :=
  ⟨s.stack, s.advStack, s.mem, s.nextCtx, 0, s.nextCtx + 1, s.clk + 1,
   s.rows ++ [(s.clk, 17)]⟩

/-- Modelled from the spec: entering a `SysCall` switches to the root
(kernel) context with a reset free-memory pointer (§3 Call/SysCall),
advancing the clock and appending a control row. -/
def enterSys (s : VMState) : VMState :=
  ⟨s.stack, s.advStack, s.mem, 0, 0, s.nextCtx, s.clk + 1,
   s.rows ++ [(s.clk, 18)]⟩

/-- Modelled from the spec: entering a `Dyn` block pops the target digest
from the stack and switches to a fresh memory context (§3 Dyn, §4.2),
advancing the clock and appending a control row. -/
def enterDyn (s : VMState) (rest : List Felt) : VMState :=
  ⟨rest, s.advStack, s.mem, s.nextCtx, 0, s.nextCtx + 1, s.clk + 1,
   s.rows ++ [(s.clk, 19)]⟩

/-- Modelled from the spec: returning from a `Call`, `SysCall` or `Dyn`
restores the caller's context id and free-memory pointer (§4.2, §4.6),
keeping the callee's stack, advice stack, memory and allocation counter,
advancing the clock and appending a control row. -/
def restoreCtx (caller t : VMState) : VMState :=
  ⟨t.stack, t.advStack, t.mem, caller.ctx, caller.fmp, t.nextCtx,
   t.clk + 1, t.rows ++ [(t.clk, 20)]⟩

/-- Modelled from the spec: big-step execution of a code-block tree
(§3 CodeBlock, §4.2 Decoder, §4.6 Process), parametrized by the block
side-table resolving `Call`/`SysCall`/`Dyn` digests (§9), the kernel's
set of digests reachable via `SysCall` (§6), and the external `Host`
collaborators.  A span runs its operations in order; a join runs its
children sequentially; a split runs exactly one child chosen by the 0/1
value on top of the stack; a loop re-checks the top-of-stack boolean
after every iteration and stops on 0; call, syscall and dyn resolve their
target digest, run it in the switched context and restore the caller's
context on return.  A non-binary condition, an unresolvable digest or a
syscall outside the kernel has no applicable rule, matching the fatal
errors of §7. -/
inductive Exec (tbl : Word → Option CodeBlock) (kern : List Word)
    (host : Host) : CodeBlock → VMState → VMState → Prop where
  | span {ops s t} : execSpan host ops s = some t →
      Exec tbl kern host (.span ops) s t
  | join {a b s u t} : Exec tbl kern host a s u →
      Exec tbl kern host b u t → Exec tbl kern host (.join a b) s t
  | splitTrue {a b s rest t} : s.stack = 1 :: rest →
      Exec tbl kern host a (popCond s rest) t →
      Exec tbl kern host (.split a b) s t
  | splitFalse {a b s rest t} : s.stack = 0 :: rest →
      Exec tbl kern host b (popCond s rest) t →
      Exec tbl kern host (.split a b) s t
  | loopTrue {body s rest u t} : s.stack = 1 :: rest →
      Exec tbl kern host body (popCond s rest) u →
      Exec tbl kern host (.loop body) u t →
      Exec tbl kern host (.loop body) s t
  | loopFalse {body s rest} : s.stack = 0 :: rest →
      Exec tbl kern host (.loop body) s (popCond s rest)
  | call {digest blk s t} : tbl digest = some blk →
      Exec tbl kern host blk (enterCall s) t →
      Exec tbl kern host (.call digest) s (restoreCtx s t)
  | syscall {digest blk s t} : digest ∈ kern → tbl digest = some blk →
      Exec tbl kern host blk (enterSys s) t →
      Exec tbl kern host (.syscall digest) s (restoreCtx s t)
  | dyn {d0 d1 d2 d3 rest blk s t} :
      s.stack = d0 :: d1 :: d2 :: d3 :: rest →
      tbl (d0, d1, d2, d3) = some blk →
      Exec tbl kern host blk (enterDyn s rest) t →
      Exec tbl kern host .dyn s (restoreCtx s t)

lemma exec_deterministic {tbl : Word → Option CodeBlock} {kern : List Word}
    {host : Host} {b : CodeBlock} {s t1 : VMState}
    (h1 : Exec tbl kern host b s t1) :
    ∀ {t2 : VMState}, Exec tbl kern host b s t2 → t1 = t2 := by
  induction h1 with
  | span h =>
    intro t2 h2
    cases h2 with
    | span h2 => exact Option.some.inj (h.symm.trans h2)
  | join ha hb iha ihb =>
    intro t2 h2
    cases h2 with
    | join ha2 hb2 =>
      cases iha ha2
      exact ihb hb2
  | splitTrue hs ha iha =>
    intro t2 h2
    cases h2 with
    | splitTrue hs2 ha2 =>
      injection hs.symm.trans hs2 with hh ht
      cases ht
      exact iha ha2
    | splitFalse hs2 hb2 =>
      injection hs.symm.trans hs2 with hh ht
      exact absurd hh (by decide)
  | splitFalse hs hb ihb =>
    intro t2 h2
    cases h2 with
    | splitTrue hs2 ha2 =>
      injection hs.symm.trans hs2 with hh ht
      exact absurd hh (by decide)
    | splitFalse hs2 hb2 =>
      injection hs.symm.trans hs2 with hh ht
      cases ht
      exact ihb hb2
  | loopTrue hs hbody hloop ihbody ihloop =>
    intro t2 h2
    cases h2 with
    | loopTrue hs2 hbody2 hloop2 =>
      injection hs.symm.trans hs2 with hh ht
      cases ht
      cases ihbody hbody2
      exact ihloop hloop2
    | loopFalse hs2 =>
      injection hs.symm.trans hs2 with hh ht
      exact absurd hh (by decide)
  | loopFalse hs =>
    intro t2 h2
    cases h2 with
    | loopTrue hs2 hbody2 hloop2 =>
      injection hs.symm.trans hs2 with hh ht
      exact absurd hh (by decide)
    | loopFalse hs2 =>
      injection hs.symm.trans hs2 with hh ht
      cases ht
      rfl
  | call hc hb ih =>
    intro t2 h2
    cases h2 with
    | call hc2 hb2 =>
      cases Option.some.inj (hc.symm.trans hc2)
      cases ih hb2
      rfl
  | syscall hk hc hb ih =>
    intro t2 h2
    cases h2 with
    | syscall hk2 hc2 hb2 =>
      cases Option.some.inj (hc.symm.trans hc2)
      cases ih hb2
      rfl
  | dyn hs hc hb ih =>
    intro t2 h2
    cases h2 with
    | dyn hs2 hc2 hb2 =>
      have hr := hs.symm.trans hs2
      injection hr with e0 hr
      injection hr with e1 hr
      injection hr with e2 hr
      injection hr with e3 hr
      subst e0
      subst e1
      subst e2
      subst e3
      subst hr
      cases Option.some.inj (hc.symm.trans hc2)
      cases ih hb2
      rfl

/-- Claim C6: execution determinism — for every block side-table, kernel
and host, two executions of the same code-block tree (over the full §3
variant set, `Call`/`SysCall`/`Dyn` included) from the same state — same
stack inputs, same advice-provider state, same memory and system
registers — produce identical trace rows, and in fact identical final
states. -/
theorem execution_deterministic (tbl : Word → Option CodeBlock)
    (kern : List Word) (host : Host) (b : CodeBlock) (s t1 t2 : VMState)
    (h1 : Exec tbl kern host b s t1) (h2 : Exec tbl kern host b s t2) :
    t1.rows = t2.rows ∧ t1 = t2 := by
  have h := exec_deterministic h1 h2
  exact ⟨by rw [h], h⟩

/-- A concrete host for the determinism witness. -/
def host0 : Host :=
  ⟨fun a b => a + b, fun a b => a * b, fun a => a, fun l => l,
   fun _ => none, fun _ _ => none⟩

/-- Claim C6 (witness): determinism applied to two concrete executions of
the block `join (span [push 7]) (span [drop])` from the empty initial
state. -/
theorem execution_deterministic_witness :
    (⟨[], [], emptyMem, 0, 0, 1, 2, [(0, 1), (1, 2)]⟩ : VMState).rows =
      (⟨[], [], emptyMem, 0, 0, 1, 2, [(0, 1), (1, 2)]⟩ : VMState).rows ∧
    (⟨[], [], emptyMem, 0, 0, 1, 2, [(0, 1), (1, 2)]⟩ : VMState) =
      ⟨[], [], emptyMem, 0, 0, 1, 2, [(0, 1), (1, 2)]⟩ :=
  execution_deterministic (fun _ => none) [] host0
    (.join (.span [.push 7]) (.span [.drop]))
    ⟨[], [], emptyMem, 0, 0, 1, 0, []⟩
    ⟨[], [], emptyMem, 0, 0, 1, 2, [(0, 1), (1, 2)]⟩
    ⟨[], [], emptyMem, 0, 0, 1, 2, [(0, 1), (1, 2)]⟩
    (Exec.join
      (Exec.span (show execSpan host0 [Op.push 7]
          ⟨[], [], emptyMem, 0, 0, 1, 0, []⟩ =
        some ⟨[7], [], emptyMem, 0, 0, 1, 1, [(0, 1)]⟩ from rfl))
      (Exec.span (show execSpan host0 [Op.drop]
          ⟨[7], [], emptyMem, 0, 0, 1, 1, [(0, 1)]⟩ =
        some ⟨[], [], emptyMem, 0, 0, 1, 2, [(0, 1), (1, 2)]⟩ from rfl)))
    (Exec.join
      (Exec.span (show execSpan host0 [Op.push 7]
          ⟨[], [], emptyMem, 0, 0, 1, 0, []⟩ =
        some ⟨[7], [], emptyMem, 0, 0, 1, 1, [(0, 1)]⟩ from rfl))
      (Exec.span (show execSpan host0 [Op.drop]
          ⟨[7], [], emptyMem, 0, 0, 1, 1, [(0, 1)]⟩ =
        some ⟨[], [], emptyMem, 0, 0, 1, 2, [(0, 1), (1, 2)]⟩ from rfl)))

/-! ## Trace padding model

The trace finalization code is missing from the provided sources (the test
module only imports `NUM_RAND_ROWS`), so it is modelled from the
specification (§3 ExecutionTrace, §8 Trace padding); the number of reserved
randomization rows is kept as a parameter. -/

/-- Modelled from the spec: the final row count is the smallest power of
two that is at least the number of executed cycles plus the reserved
randomization rows (§8 Trace padding). -/
def traceLen (cycles randRows : Nat) : Nat :=
  2 ^ Nat.clog 2 (cycles + randRows)

/-- Modelled from the spec: rows beyond the last real cycle are padding
repeating the halt state (§3 ExecutionTrace). -/
def finalizeTrace {α : Type} (rows : List α) (randRows : Nat) (halt : α) :
    List α :=
  rows ++ List.replicate (traceLen rows.length randRows - rows.length) halt

/-- Claim C7: trace padding — the finalized trace's row count is exactly
`traceLen`, which is a power of two, is at least the cycle count plus the
reserved randomization rows, and is the smallest such power of two; every
row past the last real cycle is the repeated halt row. -/
theorem trace_padding {α : Type} (rows : List α) (randRows : Nat)
    (halt : α) :
    (finalizeTrace rows randRows halt).length =
      traceLen rows.length randRows ∧
    (∃ k, traceLen rows.length randRows = 2 ^ k) ∧
    rows.length + randRows ≤ traceLen rows.length randRows ∧
    (∀ m, rows.length + randRows ≤ 2 ^ m →
      traceLen rows.length randRows ≤ 2 ^ m) ∧
    (∀ i, rows.length ≤ i → i < (finalizeTrace rows randRows halt).length →
      (finalizeTrace rows randRows halt)[i]? = some halt) := by
  have hle : rows.length + randRows ≤ traceLen rows.length randRows :=
    Nat.le_pow_clog (by norm_num) _
  have hrows : rows.length ≤ traceLen rows.length randRows :=
    le_trans (Nat.le_add_right _ _) hle
  have hlen : (finalizeTrace rows randRows halt).length =
      traceLen rows.length randRows := by
    simp only [finalizeTrace, List.length_append, List.length_replicate]
    omega
  refine ⟨hlen, ⟨Nat.clog 2 (rows.length + randRows), rfl⟩, hle, ?_, ?_⟩
  · intro m hm
    exact Nat.pow_le_pow_right (by norm_num)
      ((Nat.le_pow_iff_clog_le (by norm_num)).mp hm)
  · intro i h1 h2
    unfold finalizeTrace
    rw [List.getElem?_append_right h1, List.getElem?_replicate]
    have hi : i - rows.length < traceLen rows.length randRows - rows.length := by
      rw [hlen] at h2
      omega
    simp [hi]

/-- Claim C7 (witness): a 5-row trace with 1 reserved randomization row
pads to 8 rows, the least power of two at least 6, and row 6 is the halt
row. -/
theorem trace_padding_witness :
    (finalizeTrace [10, 11, 12, 13, 14] 1 99).length = traceLen 5 1 ∧
    traceLen 5 1 ≤ 2 ^ 3 ∧
    (finalizeTrace [10, 11, 12, 13, 14] 1 99)[6]? = some 99 := by
  have h := trace_padding [10, 11, 12, 13, 14] 1 99
  have hlow : 6 ≤ traceLen 5 1 := h.2.2.1
  have hmin : traceLen 5 1 ≤ 2 ^ 3 := h.2.2.2.1 3 (by norm_num)
  have htr : traceLen 5 1 = 8 := by
    obtain ⟨k, hk⟩ := h.2.1
    have hk2 : traceLen 5 1 = 2 ^ k := hk
    have hkle : k ≤ 3 := by
      by_contra hgt
      push_neg at hgt
      have h16 : 2 ^ 4 ≤ 2 ^ k := Nat.pow_le_pow_right (by norm_num) hgt
      omega
    interval_cases k <;> norm_num at hk2 <;> omega
  have hflen : (finalizeTrace [10, 11, 12, 13, 14] 1 99).length = 8 :=
    h.1.trans htr
  exact ⟨h.1, hmin, h.2.2.2.2 6 (by norm_num) (by omega)⟩

end MidenVM
